import Mathlib

/-!
Verification of the `iot-comm` repository (Rust): a half-precision telemetry
codec (`src/core/mod.rs`), a simulated controller with 8 sensor zones, and a
broker whose worker loop decodes 4-byte records and acknowledges with `R`
(`src/broker/main.rs`).

Bytes are modelled as `Nat` values below 256, 16-bit half-precision patterns as
`Nat` values below 65536; `to_ne_bytes`/`from_ne_bytes` are the bit-exact
byte (de)composition on the reference little-endian platform.  Fallible code
(Rust panics) is modelled with `Option`, `none` standing for a panic.
-/

set_option autoImplicit false

/-- Little-endian two-byte decomposition of a 16-bit pattern, the model of
`f16::to_ne_bytes` on the reference (little-endian) platform. -/
def toNeBytes (x : Nat) : List Nat :=
  [x % 256, x / 256 % 256]

/-- Recomposition of a 16-bit pattern from its two native-endian bytes, the
model of `f16::from_ne_bytes`. -/
def fromNeBytes (b0 b1 : Nat) : Nat :=
  b0 + 256 * b1

/-- The `Sensor` structure of `src/core/mod.rs`, at the bit level: each field
holds the 16-bit pattern of the corresponding `f16` value. -/
structure Sensor where
  temperature : Nat
  humidity : Nat
deriving DecidableEq, Repr

/-- Model of `Sensor::to_bytes` (`impl Bytes for Sensor`): the concatenation of
the temperature's and the humidity's native-endian bytes. -/
def Sensor.to_bytes (s : Sensor) : List Nat :=
  toNeBytes s.temperature ++ toNeBytes s.humidity

/-- Model of `impl From<&[u8]> for Sensor`: reads `bytes[0] .. bytes[3]`,
ignoring any further bytes; indexing past the end of the slice is a Rust
panic, modelled as `none`. -/
def Sensor.fromBytes : List Nat → Option Sensor
  | b0 :: b1 :: b2 :: b3 :: _ => some ⟨fromNeBytes b0 b1, fromNeBytes b2 b3⟩
  | _ => none

/-- Round-trip of one 16-bit pattern through its byte decomposition. -/
theorem toNeBytes_fromNeBytes (b0 b1 : Nat) (h0 : b0 < 256) (h1 : b1 < 256) :
    toNeBytes (fromNeBytes b0 b1) = [b0, b1] := by
  simp only [toNeBytes, fromNeBytes, List.cons.injEq, and_true]
  omega

/-- Encoding a sensor always yields exactly four bytes. -/
theorem Sensor.to_bytes_length (s : Sensor) : s.to_bytes.length = 4 := by
  simp [Sensor.to_bytes, toNeBytes]

/-- C2: for every 4-byte input, `to_bytes` after `from` is the identity, hence
`decode (encode (decode bytes)) = decode bytes` bit-exactly. -/
theorem decode_encode_decode_roundtrip (b0 b1 b2 b3 : Nat)
    (h0 : b0 < 256) (h1 : b1 < 256) (h2 : b2 < 256) (h3 : b3 < 256) :
    (Sensor.fromBytes [b0, b1, b2, b3]).map Sensor.to_bytes
        = some [b0, b1, b2, b3] ∧
    (Sensor.fromBytes [b0, b1, b2, b3]).bind
        (fun s => Sensor.fromBytes s.to_bytes)
      = Sensor.fromBytes [b0, b1, b2, b3] := by
  have hT := toNeBytes_fromNeBytes b0 b1 h0 h1
  have hH := toNeBytes_fromNeBytes b2 b3 h2 h3
  constructor
  · simp [Sensor.fromBytes, Sensor.to_bytes, hT, hH]
  · simp [Sensor.fromBytes, Sensor.to_bytes, hT, hH]

/-- Witness for C2 at the concrete input `[1, 2, 3, 255]`. -/
theorem decode_encode_decode_roundtrip_witness :
    (Sensor.fromBytes [1, 2, 3, 255]).map Sensor.to_bytes
        = some [1, 2, 3, 255] ∧
    (Sensor.fromBytes [1, 2, 3, 255]).bind
        (fun s => Sensor.fromBytes s.to_bytes)
      = Sensor.fromBytes [1, 2, 3, 255] :=
  decode_encode_decode_roundtrip 1 2 3 255
    (by decide) (by decide) (by decide) (by decide)

/-- C3: `to_bytes` returns exactly 4 bytes; the first two are the
temperature's native-endian representation and the last two the
humidity's. -/
theorem encode_four_bytes (s : Sensor) :
    s.to_bytes.length = 4 ∧
    s.to_bytes.take 2 = toNeBytes s.temperature ∧
    s.to_bytes.drop 2 = toNeBytes s.humidity := by
  refine ⟨Sensor.to_bytes_length s, ?_, ?_⟩
  · simp [Sensor.to_bytes, toNeBytes]
  · simp [Sensor.to_bytes, toNeBytes]

/-- C4: decoding succeeds on every input of length exactly 4 (any bit
pattern), and panics (`none`) whenever fewer than 4 bytes are supplied. -/
theorem decode_total_on_4_panics_below (bytes : List Nat) :
    (bytes.length = 4 → (Sensor.fromBytes bytes).isSome = true) ∧
    (bytes.length < 4 → Sensor.fromBytes bytes = none) := by
  constructor
  · intro hlen
    match bytes, hlen with
    | [b0, b1, b2, b3], _ => rfl
  · intro hlen
    match bytes, hlen with
    | [], _ => rfl
    | [b0], _ => rfl
    | [b0, b1], _ => rfl
    | [b0, b1, b2], _ => rfl

/-- Witness for C4: a 4-byte input decodes, a 3-byte input panics. -/
theorem decode_total_on_4_panics_below_witness :
    (Sensor.fromBytes [0, 0, 0, 0]).isSome = true ∧
    Sensor.fromBytes [0, 0, 0] = none :=
  ⟨(decode_total_on_4_panics_below [0, 0, 0, 0]).1 rfl,
   (decode_total_on_4_panics_below [0, 0, 0]).2 (by decide)⟩

/-- Model of Rust's `slice::chunks(4)`: splits a byte list into consecutive
chunks of 4, the final chunk shorter when the length is not a multiple of 4;
no empty chunk is produced. -/
def chunks4 {α : Type} : List α → List (List α)
  | [] => []
  | [a] => [[a]]
  | [a, b] => [[a, b]]
  | [a, b, c] => [[a, b, c]]
  | a :: b :: c :: d :: rest => [a, b, c, d] :: chunks4 rest

/-- Decoding every chunk of the payload in order via `Sensor::from`, as the
worker's logging loop does; the first chunk that panics (`none`) aborts the
whole cycle. -/
def decodeAll : List (List Nat) → Option (List Sensor)
  | [] => some []
  | c :: rest =>
    match Sensor.fromBytes c, decodeAll rest with
    | some s, some tail => some (s :: tail)
    | _, _ => none

/-- A UTF-8 continuation byte (`0x80 ..= 0xBF`). -/
def isCont (b : Nat) : Bool :=
  decide (128 ≤ b) && decide (b < 192)

/-- UTF-8 validity of a byte string, as checked by Rust's
`String::from_utf8` (which `recv_string` calls): ASCII, 2-byte leads
`C2..DF`, 3-byte leads `E0..EF` with the `E0`/`ED` second-byte restrictions
(no overlong forms, no surrogates), 4-byte leads `F0..F4` with the `F0`/`F4`
second-byte restrictions (no overlong forms, max `U+10FFFF`). -/
def utf8Valid : List Nat → Bool
  | [] => true
  | b :: rest =>
    if b < 128 then utf8Valid rest
    else if b < 194 then false
    else if b < 224 then
      match rest with
      | b1 :: rest2 => isCont b1 && utf8Valid rest2
      | [] => false
    else if b < 240 then
      match rest with
      | b1 :: b2 :: rest3 =>
        (if b = 224 then decide (160 ≤ b1) && decide (b1 < 192)
         else if b = 237 then decide (128 ≤ b1) && decide (b1 < 160)
         else isCont b1)
          && isCont b2 && utf8Valid rest3
      | _ => false
    else if b < 245 then
      match rest with
      | b1 :: b2 :: b3 :: rest4 =>
        (if b = 240 then decide (144 ≤ b1) && decide (b1 < 192)
         else if b = 244 then decide (128 ≤ b1) && decide (b1 < 144)
         else isCont b1)
          && isCont b2 && isCont b3 && utf8Valid rest4
      | _ => false
    else false

/-- Everything one worker receive cycle produces: the log header (the
originating identity), the numbered log lines, and the reply frames sent
back through the backend socket. -/
structure WorkerOutput where
  logHeader : List Nat
  logLines : List (Nat × Sensor)
  replyFrames : List (List Nat)
deriving DecidableEq, Repr

/-- The body of `server_worker`'s loop after the two receive calls
(lines 53-65 of `src/broker/main.rs`): split the payload into 4-byte chunks,
decode each via `Sensor::from` into a numbered log line under the identity
header, then reply with the identity frame followed by the one-byte
acknowledgment `R` (byte 82).  A decoding panic aborts the cycle
(`none`). -/
def handleRequest (identity payload : List Nat) : Option WorkerOutput :=
  match decodeAll (chunks4 payload) with
  | some sensors => some ⟨identity, sensors.enum, [identity, [82]]⟩
  | none => none

/-- One full receive cycle of `server_worker` (lines 44-66): the identity
frame is received with `recv_string(0) ... .unwrap()`, which panics unless
the identity bytes are valid UTF-8; the payload is then handled by the loop
body.  `none` models a worker panic. -/
def workerCycle (identity payload : List Nat) : Option WorkerOutput :=
  if utf8Valid identity then handleRequest identity payload else none

/-- When the payload length is a multiple of 4, every chunk produced by
`chunks(4)` has length exactly 4. -/
theorem chunks4_all_len4 {α : Type} :
    ∀ (l : List α), l.length % 4 = 0 → ∀ c ∈ chunks4 l, c.length = 4
  | [], _, _, hc => by simp [chunks4] at hc
  | [_], h, _, _ => by simp at h
  | [_, _], h, _, _ => by simp at h
  | [_, _, _], h, _, _ => by simp at h
  | a :: b :: c :: d :: rest, h, ch, hch => by
    have h' : rest.length % 4 = 0 := by
      simp only [List.length_cons] at h; omega
    simp only [chunks4, List.mem_cons] at hch
    rcases hch with rfl | hch
    · rfl
    · exact chunks4_all_len4 rest h' ch hch

/-- The number of chunks produced by `chunks(4)`. -/
theorem chunks4_length {α : Type} :
    ∀ (l : List α), (chunks4 l).length = (l.length + 3) / 4
  | [] => by simp [chunks4]
  | [_] => by simp [chunks4]
  | [_, _] => by simp [chunks4]
  | [_, _, _] => by simp [chunks4]
  | _ :: _ :: _ :: _ :: rest => by
    simp only [chunks4, List.length_cons, chunks4_length rest]
    omega

/-- When the payload length is not a multiple of 4, `chunks(4)` ends with a
chunk of fewer than 4 bytes. -/
theorem chunks4_short :
    ∀ (l : List Nat), l.length % 4 ≠ 0 → ∃ c, c ∈ chunks4 l ∧ c.length < 4
  | [], h => absurd rfl h
  | [a], _ => ⟨[a], by simp [chunks4], by simp⟩
  | [a, b], _ => ⟨[a, b], by simp [chunks4], by simp⟩
  | [a, b, c], _ => ⟨[a, b, c], by simp [chunks4], by simp⟩
  | a :: b :: c :: d :: rest, h => by
    have h' : rest.length % 4 ≠ 0 := by
      simp only [List.length_cons] at h; omega
    obtain ⟨ch, hmem, hlen⟩ := chunks4_short rest h'
    exact ⟨ch, by simp [chunks4, hmem], hlen⟩

/-- `Sensor::from` succeeds on any slice of at least 4 bytes. -/
theorem fromBytes_isSome_of_le (c : List Nat) (h : 4 ≤ c.length) :
    (Sensor.fromBytes c).isSome = true := by
  match c, h with
  | _ :: _ :: _ :: _ :: _, _ => rfl

/-- `Sensor::from` panics on any slice of fewer than 4 bytes. -/
theorem fromBytes_none_of_short (c : List Nat) (h : c.length < 4) :
    Sensor.fromBytes c = none := by
  match c, h with
  | [], _ => rfl
  | [_], _ => rfl
  | [_, _], _ => rfl
  | [_, _, _], _ => rfl

/-- Decoding a list of chunks that all have at least 4 bytes succeeds and
yields one sensor per chunk. -/
theorem decodeAll_some_of_le (cs : List (List Nat))
    (h : ∀ c ∈ cs, 4 ≤ c.length) :
    ∃ ss, decodeAll cs = some ss ∧ ss.length = cs.length := by
  induction cs with
  | nil => exact ⟨[], rfl, rfl⟩
  | cons c rest ih =>
    obtain ⟨ss, hss, hlen⟩ := ih (fun x hx => h x (List.mem_cons_of_mem _ hx))
    obtain ⟨s, hs⟩ := Option.isSome_iff_exists.mp
      (fromBytes_isSome_of_le c (h c (List.mem_cons_self _ _)))
    exact ⟨s :: ss, by simp [decodeAll, hs, hss], by simp [hlen]⟩

/-- Decoding succeeds only with one sensor per chunk. -/
theorem decodeAll_length :
    ∀ (cs : List (List Nat)) (ss : List Sensor),
      decodeAll cs = some ss → ss.length = cs.length
  | [], ss, h => by
    simp only [decodeAll, Option.some.injEq] at h
    simp [← h]
  | c :: rest, ss, h => by
    simp only [decodeAll] at h
    cases hfb : Sensor.fromBytes c with
    | none => rw [hfb] at h; cases h
    | some s =>
      cases hd : decodeAll rest with
      | none => rw [hfb, hd] at h; cases h
      | some tail =>
        rw [hfb, hd] at h
        obtain rfl := Option.some.inj h
        simp [decodeAll_length rest tail hd]

/-- If any chunk is shorter than 4 bytes, the decoding loop panics. -/
theorem decodeAll_none_of_short :
    ∀ (cs : List (List Nat)) (c : List Nat),
      c ∈ cs → c.length < 4 → decodeAll cs = none
  | c' :: rest, c, hmem, hlen => by
    rcases List.mem_cons.mp hmem with rfl | hmem'
    · simp [decodeAll, fromBytes_none_of_short c hlen]
    · have hrest := decodeAll_none_of_short rest c hmem' hlen
      cases hfb : Sensor.fromBytes c' <;> simp [decodeAll, hfb, hrest]

/-- C5: on a payload whose length is a multiple of 4, the worker's reply is
exactly two frames: the identity frame it received, then the single literal
byte `R` (82). -/
theorem worker_reply_frames (identity payload : List Nat)
    (hlen : payload.length % 4 = 0) :
    (handleRequest identity payload).map (fun o => o.replyFrames)
      = some [identity, [82]] := by
  obtain ⟨ss, hss, _⟩ := decodeAll_some_of_le (chunks4 payload)
    (fun c hc => le_of_eq (chunks4_all_len4 payload hlen c hc).symm)
  simp [handleRequest, hss]

/-- Witness for C5 at identity `[97]` and an 8-byte payload. -/
theorem worker_reply_frames_witness :
    (handleRequest [97] [0, 0, 0, 0, 1, 0, 1, 0]).map (fun o => o.replyFrames)
      = some [[97], [82]] :=
  worker_reply_frames [97] [0, 0, 0, 0, 1, 0, 1, 0] (by decide)

/-- C6: on a payload of `n` 4-byte records, the worker logs under a header
naming the originating identity, one line per record, numbered consecutively
from 0, each record decoded independently via `Sensor::from`. -/
theorem worker_log_lines (identity payload : List Nat) (out : WorkerOutput)
    (hlen : payload.length % 4 = 0)
    (hout : handleRequest identity payload = some out) :
    out.logHeader = identity ∧
    out.logLines.map Prod.fst = List.range (payload.length / 4) ∧
    decodeAll (chunks4 payload) = some (out.logLines.map Prod.snd) := by
  unfold handleRequest at hout
  cases hd : decodeAll (chunks4 payload) with
  | none => rw [hd] at hout; cases hout
  | some sensors =>
    rw [hd] at hout
    obtain rfl := Option.some.inj hout
    have hn : sensors.length = payload.length / 4 := by
      have h1 := decodeAll_length (chunks4 payload) sensors hd
      have h2 := chunks4_length payload
      omega
    refine ⟨rfl, ?_, ?_⟩
    · simp [List.enum_map_fst, hn]
    · simp [List.enum_map_snd, hd]

/-- Witness for C6: two all-zero records under identity `[97]` give log
lines numbered 0 and 1. -/
theorem worker_log_lines_witness :
    (WorkerOutput.logHeader
        ⟨[97], [(0, ⟨0, 0⟩), (1, ⟨0, 0⟩)], [[97], [82]]⟩) = [97] ∧
    (WorkerOutput.logLines
        ⟨[97], [(0, ⟨0, 0⟩), (1, ⟨0, 0⟩)], [[97], [82]]⟩).map Prod.fst
      = List.range ((8 : Nat) / 4) ∧
    decodeAll (chunks4 [0, 0, 0, 0, 0, 0, 0, 0])
      = some ((WorkerOutput.logLines
          ⟨[97], [(0, ⟨0, 0⟩), (1, ⟨0, 0⟩)], [[97], [82]]⟩).map Prod.snd) :=
  worker_log_lines [97] [0, 0, 0, 0, 0, 0, 0, 0]
    ⟨[97], [(0, ⟨0, 0⟩), (1, ⟨0, 0⟩)], [[97], [82]]⟩ (by decide) (by decide)

/-- C10: on a payload whose length is not a multiple of 4, the worker panics
while decoding the final short chunk: `chunks(4)` yields a last chunk of
fewer than 4 bytes and `Sensor::from` indexes past its end. -/
theorem worker_panics_on_unaligned (identity payload : List Nat)
    (h : payload.length % 4 ≠ 0) :
    handleRequest identity payload = none := by
  obtain ⟨c, hmem, hshort⟩ := chunks4_short payload h
  simp [handleRequest, decodeAll_none_of_short (chunks4 payload) c hmem hshort]

/-- Witness for C10 at a 3-byte payload. -/
theorem worker_panics_on_unaligned_witness :
    handleRequest [97] [0, 0, 0] = none :=
  worker_panics_on_unaligned [97] [0, 0, 0] (by decide)

/-- C1 counterexample: the single byte `0xFF` is not valid UTF-8, so
`recv_string(0)....unwrap()` panics and the worker never replies at all —
the identity is not preserved opaquely for byte-string identities that are
not valid UTF-8. -/
theorem worker_identity_not_opaque_counterexample :
    workerCycle [255] [0, 0, 0, 0] = none := by
  decide

/-- C1 (amended): whenever a worker completes a request cycle — which
requires the received identity to be valid UTF-8 — the reply's identity
frame is exactly the identity frame received with that request; the worker
does, however, depend on the identity's contents being valid UTF-8 (and
prints them in the log header). -/
theorem worker_preserves_identity (identity payload : List Nat)
    (out : WorkerOutput) (hout : workerCycle identity payload = some out) :
    out.replyFrames = [identity, [82]] ∧ out.logHeader = identity := by
  unfold workerCycle at hout
  by_cases hv : utf8Valid identity
  · rw [if_pos hv] at hout
    unfold handleRequest at hout
    cases hd : decodeAll (chunks4 payload) with
    | none => rw [hd] at hout; cases hout
    | some sensors =>
      rw [hd] at hout
      obtain rfl := Option.some.inj hout
      exact ⟨rfl, rfl⟩
  · rw [if_neg hv] at hout
    cases hout

/-- Witness for the amended C1 at valid-UTF-8 identity `[97]`. -/
theorem worker_preserves_identity_witness :
    (WorkerOutput.replyFrames ⟨[97], [(0, ⟨0, 0⟩)], [[97], [82]]⟩)
        = [[97], [82]] ∧
    (WorkerOutput.logHeader ⟨[97], [(0, ⟨0, 0⟩)], [[97], [82]]⟩) = [97] :=
  worker_preserves_identity [97] [0, 0, 0, 0]
    ⟨[97], [(0, ⟨0, 0⟩)], [[97], [82]]⟩ (by decide)

/-- The `Controller` structure of `src/core/mod.rs`: an opaque id (a random
`nanoid` in the source) and the list of connected sensors. -/
structure Controller where
  id : String
  sensors : List Sensor

/-- Model of `Controller::new`: pushes 8 freshly sampled sensors.  The
randomness of `Sensor::new` is modelled by the oracle `fresh`, giving the
sensor produced by the i-th call; the random `nanoid!()` id is likewise a
parameter. -/
def Controller.new (id : String) (fresh : Nat → Sensor) : Controller :=
  ⟨id, (List.range 8).map fresh⟩

/-- Model of `Controller::sensor_data`: updates every sensor in place
(`Sensor::update` overwrites both fields with freshly sampled values, here
supplied by the oracle `fresh` indexed by zone) and returns the updated
controller together with the concatenation of each zone's encoding in zone
order. -/
def Controller.sensor_data (c : Controller) (fresh : Nat → Sensor) :
    Controller × List Nat :=
  let updated := (List.range c.sensors.length).map fresh
  (⟨c.id, updated⟩, (updated.map Sensor.to_bytes).flatten)

/-- C7: for a controller with 8 zones, `sensor_data` returns exactly
32 bytes, equal to the concatenation of each (freshly resampled) zone's
4-byte encoding in zone order, and every reading has been resampled in
place. -/
theorem controller_payload (c : Controller) (fresh : Nat → Sensor)
    (h8 : c.sensors.length = 8) :
    (c.sensor_data fresh).2.length = 32 ∧
    (c.sensor_data fresh).2
      = ((c.sensor_data fresh).1.sensors.map Sensor.to_bytes).flatten ∧
    (c.sensor_data fresh).1.sensors = (List.range 8).map fresh := by
  refine ⟨?_, ?_, ?_⟩
  · simp [Controller.sensor_data, h8, List.length_flatten, List.map_map,
      Function.comp_def, Sensor.to_bytes_length]
  · simp [Controller.sensor_data]
  · simp [Controller.sensor_data, h8]

/-- Witness for C7 at a concrete controller and sampling oracle. -/
theorem controller_payload_witness :
    ((Controller.new "a" (fun _ => (⟨0, 0⟩ : Sensor))).sensor_data
        (fun _ => (⟨1, 1⟩ : Sensor))).2.length = 32 ∧
    ((Controller.new "a" (fun _ => (⟨0, 0⟩ : Sensor))).sensor_data
        (fun _ => (⟨1, 1⟩ : Sensor))).2
      = (((Controller.new "a" (fun _ => (⟨0, 0⟩ : Sensor))).sensor_data
          (fun _ => (⟨1, 1⟩ : Sensor))).1.sensors.map Sensor.to_bytes).flatten ∧
    ((Controller.new "a" (fun _ => (⟨0, 0⟩ : Sensor))).sensor_data
        (fun _ => (⟨1, 1⟩ : Sensor))).1.sensors
      = (List.range 8).map (fun _ => (⟨1, 1⟩ : Sensor)) :=
  controller_payload (Controller.new "a" (fun _ => (⟨0, 0⟩ : Sensor)))
    (fun _ => (⟨1, 1⟩ : Sensor)) (by decide)

/-- Outcome of the broker's startup: either the process panicked, or it
reached the worker-spawning and `zmq::proxy` stage. -/
inductive ProcOutcome where
  | panicked : ProcOutcome
  | proxying : ProcOutcome
deriving DecidableEq, Repr

/-- Model of `server_task` startup (lines 15-30 of `src/broker/main.rs`),
over the outcomes of the frontend and backend `bind` calls: `.expect` on a
failed bind panics the process; only when both binds succeed does the task
spawn the workers and enter `zmq::proxy`.  The outcome type has no
recoverable-error alternative: no `Result` is ever returned to a caller. -/
def server_task (frontendBindOk backendBindOk : Bool) : ProcOutcome :=
  if frontendBindOk then
    if backendBindOk then ProcOutcome.proxying else ProcOutcome.panicked
  else ProcOutcome.panicked

/-- C9: if binding either the frontend or the backend endpoint fails, the
broker panics at startup and never reaches the relaying stage. -/
theorem bind_failure_fatal (f b : Bool) (h : f = false ∨ b = false) :
    server_task f b = ProcOutcome.panicked ∧
    server_task f b ≠ ProcOutcome.proxying := by
  cases f <;> cases b <;> simp_all [server_task]

/-- Witness for C9: a failed frontend bind panics the broker. -/
theorem bind_failure_fatal_witness :
    server_task false true = ProcOutcome.panicked ∧
    server_task false true ≠ ProcOutcome.proxying :=
  bind_failure_fatal false true (Or.inl rfl)

/-- Round to nearest integer, ties to even — the IEEE 754 rounding used by
`f16::from_f32`. -/
def rtne (q : ℚ) : ℤ :=
  if q - ⌊q⌋ < 1 / 2 then ⌊q⌋
  else if 1 / 2 < q - ⌊q⌋ then ⌊q⌋ + 1
  else if Even ⌊q⌋ then ⌊q⌋ else ⌊q⌋ + 1

/-- Rounding to nearest yields the floor or the floor plus one. -/
theorem rtne_cases (q : ℚ) : rtne q = ⌊q⌋ ∨ rtne q = ⌊q⌋ + 1 := by
  unfold rtne
  split_ifs <;> simp

/-- Rounding to nearest never drops below an integer lower bound. -/
theorem rtne_ge (q : ℚ) (a : ℤ) (h : (a : ℚ) ≤ q) : a ≤ rtne q := by
  have hf : a ≤ ⌊q⌋ := Int.le_floor.mpr h
  rcases rtne_cases q with h' | h' <;> omega

/-- Rounding to nearest never exceeds a strict integer upper bound. -/
theorem rtne_le (q : ℚ) (b : ℤ) (h : q < (b : ℚ)) : rtne q ≤ b := by
  have hf : ⌊q⌋ < b := Int.floor_lt.mpr h
  rcases rtne_cases q with h' | h' <;> omega

/-- Exact value of `f16::from_f32` (round to nearest, ties to even) for
inputs in the half-precision binades `[8, 16)`, `[16, 32)` and `[32, 64)`,
whose ulps are `1/128`, `1/64` and `1/32`; these cover both sampling ranges
`40.0..50.0` and `10.0..20.0` of `Sensor::new` / `Sensor::update`.  The
argument is the exact rational value of the sampled `f32`. -/
def f16FromRat (q : ℚ) : ℚ :=
  if q < 16 then (rtne (q * 128) : ℚ) / 128
  else if q < 32 then (rtne (q * 64) : ℚ) / 64
  else (rtne (q * 32) : ℚ) / 32

/-- The `Sensor` structure at the value level: the real values of the two
stored half-precision floats. -/
structure SensorVal where
  temperature : ℚ
  humidity : ℚ
deriving DecidableEq, Repr

/-- Value-level model of `Sensor::new` and `Sensor::update` (both run the
same two statements): the stored fields are `f16::from_f32` of the `f32`
samples `t` drawn from `gen_range(40.0..50.0)` and `h` drawn from
`gen_range(10.0..20.0)`. -/
def SensorVal.update (t h : ℚ) : SensorVal :=
  ⟨f16FromRat t, f16FromRat h⟩

/-- C8 counterexample: the sample `6399/128 = 49.9921875` (an exact `f32`
value inside `[40, 50)`) is rounded up by the half-precision conversion to
exactly `50`, so the stored temperature does not lie within `[40, 50)`. -/
theorem sensor_range_counterexample :
    40 ≤ (6399 : ℚ) / 128 ∧ (6399 : ℚ) / 128 < 50 ∧
    (SensorVal.update ((6399 : ℚ) / 128) 15).temperature = 50 ∧
    ¬ (SensorVal.update ((6399 : ℚ) / 128) 15).temperature < 50 := by
  have h16 : ¬ ((6399 : ℚ) / 128 < 16) := by norm_num
  have h32 : ¬ ((6399 : ℚ) / 128 < 32) := by norm_num
  have hq : (6399 : ℚ) / 128 * 32 = 6399 / 4 := by norm_num
  have hfloor : ⌊(6399 : ℚ) / 4⌋ = 1599 := by
    rw [Int.floor_eq_iff]
    constructor <;> [push_cast; push_cast] <;> norm_num
  have hrtne : rtne ((6399 : ℚ) / 4) = 1600 := by
    unfold rtne
    rw [hfloor]
    rw [if_neg (by push_cast; norm_num), if_pos (by push_cast; norm_num)]
    norm_num
  have hval : (SensorVal.update ((6399 : ℚ) / 128) 15).temperature = 50 := by
    simp only [SensorVal.update, f16FromRat, if_neg h16, if_neg h32, hq, hrtne]
    norm_num
  exact ⟨by norm_num, by norm_num, hval, by rw [hval]; norm_num⟩

/-- C8 (amended): every refresh stores a half-precision temperature within
the closed interval `[40, 50]` and a humidity within `[10, 20]`; rounding to
the nearest representable half-precision value can push a sample drawn just
below the upper bound up to exactly 50 (resp. 20), so the half-open ranges
of the samples only survive in closed form. -/
theorem sensor_update_in_closed_range (t h : ℚ)
    (ht0 : 40 ≤ t) (ht1 : t < 50) (hh0 : 10 ≤ h) (hh1 : h < 20) :
    40 ≤ (SensorVal.update t h).temperature ∧
    (SensorVal.update t h).temperature ≤ 50 ∧
    10 ≤ (SensorVal.update t h).humidity ∧
    (SensorVal.update t h).humidity ≤ 20 := by
  have htemp : (SensorVal.update t h).temperature = (rtne (t * 32) : ℚ) / 32 := by
    simp only [SensorVal.update, f16FromRat]
    rw [if_neg (by linarith), if_neg (by linarith)]
  have htlo : ((1280 : ℤ) : ℚ) ≤ (rtne (t * 32) : ℚ) := by
    exact_mod_cast rtne_ge (t * 32) 1280 (by push_cast; linarith)
  have hthi : (rtne (t * 32) : ℚ) ≤ ((1600 : ℤ) : ℚ) := by
    exact_mod_cast rtne_le (t * 32) 1600 (by push_cast; linarith)
  refine ⟨?_, ?_, ?_, ?_⟩
  · rw [htemp]; push_cast at htlo; linarith
  · rw [htemp]; push_cast at hthi; linarith
  · by_cases hc : h < 16
    · have hhum : (SensorVal.update t h).humidity = (rtne (h * 128) : ℚ) / 128 := by
        simp only [SensorVal.update, f16FromRat]
        rw [if_pos hc]
      have hlo : ((1280 : ℤ) : ℚ) ≤ (rtne (h * 128) : ℚ) := by
        exact_mod_cast rtne_ge (h * 128) 1280 (by push_cast; linarith)
      rw [hhum]; push_cast at hlo; linarith
    · have hhum : (SensorVal.update t h).humidity = (rtne (h * 64) : ℚ) / 64 := by
        simp only [SensorVal.update, f16FromRat]
        rw [if_neg hc, if_pos (by linarith)]
      have hlo : ((1024 : ℤ) : ℚ) ≤ (rtne (h * 64) : ℚ) := by
        exact_mod_cast rtne_ge (h * 64) 1024 (by push_cast; linarith)
      rw [hhum]; push_cast at hlo; linarith
  · by_cases hc : h < 16
    · have hhum : (SensorVal.update t h).humidity = (rtne (h * 128) : ℚ) / 128 := by
        simp only [SensorVal.update, f16FromRat]
        rw [if_pos hc]
      have hhi : (rtne (h * 128) : ℚ) ≤ ((2048 : ℤ) : ℚ) := by
        exact_mod_cast rtne_le (h * 128) 2048 (by push_cast; linarith)
      rw [hhum]; push_cast at hhi; linarith
    · have hhum : (SensorVal.update t h).humidity = (rtne (h * 64) : ℚ) / 64 := by
        simp only [SensorVal.update, f16FromRat]
        rw [if_neg hc, if_pos (by linarith)]
      have hhi : (rtne (h * 64) : ℚ) ≤ ((1280 : ℤ) : ℚ) := by
        exact_mod_cast rtne_le (h * 64) 1280 (by push_cast; linarith)
      rw [hhum]; push_cast at hhi; linarith

/-- Witness for the amended C8 at the samples `t = 45`, `h = 15`. -/
theorem sensor_update_in_closed_range_witness :
    40 ≤ (SensorVal.update 45 15).temperature ∧
    (SensorVal.update 45 15).temperature ≤ 50 ∧
    10 ≤ (SensorVal.update 45 15).humidity ∧
    (SensorVal.update 45 15).humidity ≤ 20 :=
  sensor_update_in_closed_range 45 15
    (by norm_num) (by norm_num) (by norm_num) (by norm_num)
